import Mathlib

/-!
Shallow embedding of the stankudrow/Data-Structures repository
(`src/Python/queues/queue/qqueue.py`, `src/Python/stack/stack.py`,
`src/Python/queues/priority_queue/pqueue.py`).

Python values relevant to the capacity argument are modelled by `PyNum`
(`int` or `float`); Python exceptions by `PyError`; a fallible call by
`Except PyError`; a call that may mutate its receiver by a pair
`(outcome, new state)` — the second component is the receiver's backing
list after the call (unchanged when the call raised before mutating).
Elements are a type parameter `α`, mirroring the duck-typed payload.
-/

set_option autoImplicit false

/-- The Python exception classes that the embedded code can raise. -/
inductive PyError where
  | typeError
  | valueError
  | indexError
  | nameError
  | queueError
  | stackError
  | pqueueError
  deriving DecidableEq, Repr

/-- A Python number supplied as a `maxlen` argument: an `int`, or a
`float` (modelled exactly as a rational; the floats appearing in the
repository — `2.5`, `1.`, `-1.`, `0.0` — are all exactly representable). -/
inductive PyNum where
  | int : Int → PyNum
  | float : Rat → PyNum
  deriving DecidableEq, Repr

/-- Python truthiness of a number: zero is falsy, everything else truthy. -/
def PyNum.truthy : PyNum → Bool
  | .int n => n != 0
  | .float q => q != 0

/-- The numeric value of a `PyNum`, for Python's mixed `int`/`float`
comparison `len(self) >= self.maxlen`. -/
def PyNum.toRat : PyNum → Rat
  | .int n => (n : Rat)
  | .float q => q

/-- Python's `len(self) >= self.maxlen` for a length `len` and a numeric
`maxlen` `m`. -/
def lenGE (len : Nat) (m : PyNum) : Bool := decide (m.toRat ≤ (len : Rat))

/-- Python truthiness of an optional list argument (`if iterable:`):
`None` and the empty list are falsy. -/
def listTruthy {α : Type} : Option (List α) → Bool
  | none => false
  | some xs => !xs.isEmpty

/-- Python's list lexicographic `<`: scan for the first index where the
lists differ; on equality at every shared index the shorter list is
smaller. `lt` is the element order. -/
def pyListLt {α : Type} [DecidableEq α] (lt : α → α → Bool) : List α → List α → Bool
  | [], [] => false
  | [], _ :: _ => true
  | _ :: _, [] => false
  | a :: as, b :: bs => if a = b then pyListLt lt as bs else lt a b

/-- `Queue` from `qqueue.py`: `__slots__ = ("_queue", "_maxlen")`; the
`queue` property exposes the backing list. -/
structure Queue (α : Type) where
  queue : List α
  maxlen : Option PyNum
  deriving DecidableEq, Repr

/-- `Stack` from `stack.py`: `__slots__ = ("_stack", "_maxlen")`. -/
structure Stack (α : Type) where
  stack : List α
  maxlen : Option PyNum
  deriving DecidableEq, Repr

/-- `PriorityQueue` from `pqueue.py`: `__slots__ = ("_queue", "_maxlen")`
(the backing list the `queue` property reads). -/
structure PriorityQueue (α : Type) where
  queue : List α
  maxlen : Option PyNum
  deriving DecidableEq, Repr

/-- `Queue.__init__(self, maxlen=None)`: the validation block runs only
when `maxlen` is truthy (`if maxlen:`); inside it, a non-`int` raises
`TypeError("maxlen is not integer")` and a negative `int` raises
`ValueError("maxlen is negative")`; in every non-raising path `maxlen`
is stored as given. -/
def Queue.init (α : Type) (maxlen : Option PyNum) : Except PyError (Queue α) :=
  match maxlen with
  | none => .ok ⟨[], none⟩
  | some m =>
    if m.truthy then
      match m with
      | .float _ => .error .typeError
      | .int n => if n < 0 then .error .valueError else .ok ⟨[], some m⟩
    else .ok ⟨[], some m⟩

/-- `Stack.__init__(self, maxlen=None)`: identical to `Queue.__init__`. -/
def Stack.init (α : Type) (maxlen : Option PyNum) : Except PyError (Stack α) :=
  match maxlen with
  | none => .ok ⟨[], none⟩
  | some m =>
    if m.truthy then
      match m with
      | .float _ => .error .typeError
      | .int n => if n < 0 then .error .valueError else .ok ⟨[], some m⟩
    else .ok ⟨[], some m⟩

/-- `Queue.enqueue`: raises `QueueError("queue overflow")` when
`(self.maxlen is not None) and (len(self) >= self.maxlen)`, else appends. -/
def Queue.enqueue {α : Type} (q : Queue α) (e : α) : Except PyError Unit × Queue α :=
  match q.maxlen with
  | some m =>
    if lenGE q.queue.length m then (.error .queueError, q)
    else (.ok (), ⟨q.queue ++ [e], q.maxlen⟩)
  | none => (.ok (), ⟨q.queue ++ [e], q.maxlen⟩)

/-- `Stack.push`: raises `StackError("stack overflow")` when
`self.maxlen and len(self) >= self.maxlen` — note the truthiness test on
`maxlen` itself, under which both `None` and `0` disable the bound. -/
def Stack.push {α : Type} (s : Stack α) (e : α) : Except PyError Unit × Stack α :=
  match s.maxlen with
  | some m =>
    if m.truthy && lenGE s.stack.length m then (.error .stackError, s)
    else (.ok (), ⟨s.stack ++ [e], s.maxlen⟩)
  | none => (.ok (), ⟨s.stack ++ [e], s.maxlen⟩)

/-- `Queue.dequeue`: `self._queue.pop(0)`, with the `IndexError` from an
empty list caught and re-raised as `QueueError("dequeue from an empty queue")`. -/
def Queue.dequeue {α : Type} (q : Queue α) : Except PyError α × Queue α :=
  match q.queue with
  | [] => (.error .queueError, q)
  | x :: xs => (.ok x, ⟨xs, q.maxlen⟩)

/-- `Stack.pop`: raises `StackError("pop from an empty stack")` when
`self.empty()`, else `self._stack.pop()` removes and returns the last
element. -/
def Stack.pop {α : Type} (s : Stack α) : Except PyError α × Stack α :=
  match s.stack.getLast? with
  | none => (.error .stackError, s)
  | some x => (.ok x, ⟨s.stack.dropLast, s.maxlen⟩)

/-- `PriorityQueue.dequeue`: `return self._queue.pop(0)` — the
`IndexError` from an empty list propagates uncaught (the method's own
docstring documents `IndexError`). -/
def PriorityQueue.dequeue {α : Type} (p : PriorityQueue α) : Except PyError α × PriorityQueue α :=
  match p.queue with
  | [] => (.error .indexError, p)
  | x :: xs => (.ok x, ⟨xs, p.maxlen⟩)

/-- `PriorityQueue.__init__(self, maxlen=None)`: its first statement,
`if iterable is None:`, reads the local variable `iterable`, which the
body later annotates and assigns (`iterable: List = []`) and which is
therefore a local that is read before any assignment — every call raises
`UnboundLocalError` (a subclass of `NameError`) at that first statement,
whatever `maxlen` is, and the rest of the body is unreachable. -/
def PriorityQueue.init (α : Type) (maxlen : Option PyNum) : Except PyError (PriorityQueue α) :=
  match maxlen with
  | _ => .error .nameError

/-- `PriorityQueue.from_iterable(cls, iterable=None, maxlen=None)`: its
first statement is `pqueue = cls()` — a call of the constructor, whose
error propagates; the enqueueing loop after it is therefore unreachable. -/
def PriorityQueue.from_iterable {α : Type} (iterable : Option (List (α × PyNum)))
    (maxlen : Option PyNum) : Except PyError (PriorityQueue α) :=
  match PriorityQueue.init α none with
  | .error e => .error e
  | .ok pq =>
    match iterable, maxlen with
    | _, _ => .ok pq

/-- `Queue.__getitem__(self, index)` restricted to `int` indices:
`self.queue[index]` with Python's negative-index convention, re-raising
out-of-range access as `IndexError("queue index out of range")`. -/
def Queue.getItem {α : Type} (q : Queue α) (i : Int) : Except PyError α :=
  let idx : Int := if i < 0 then i + q.queue.length else i
  if idx < 0 then .error .indexError
  else
    match q.queue[idx.toNat]? with
    | some v => .ok v
    | none => .error .indexError

/-- `Queue.first`: `return self[0]` — delegates to `__getitem__`, so an
empty queue raises `IndexError` (despite the docstring's promise of `None`). -/
def Queue.first {α : Type} (q : Queue α) : Except PyError α :=
  q.getItem 0

/-- `Stack.peak`: `if self.stack: return self.stack[-1]` else `return None`;
`Option` models the value-or-`None` result. -/
def Stack.peak {α : Type} (s : Stack α) : Option α :=
  if s.stack.isEmpty then none else s.stack.getLast?

/-- The loop body shared by `Queue.from_iterable`'s two branches:
enqueue each element in order, propagating any `QueueError`. -/
def Queue.enqueueAll {α : Type} (q : Queue α) : List α → Except PyError (Queue α)
  | [] => .ok q
  | x :: xs =>
    match q.enqueue x with
    | (.ok _, q₁) => Queue.enqueueAll q₁ xs
    | (.error e, _) => .error e

/-- The loop body shared by `Stack.from_iterable`'s two branches. -/
def Stack.pushAll {α : Type} (s : Stack α) : List α → Except PyError (Stack α)
  | [] => .ok s
  | x :: xs =>
    match s.push x with
    | (.ok _, s₁) => Stack.pushAll s₁ xs
    | (.error e, _) => .error e

/-- `Queue.from_iterable(cls, iterable=None, maxlen=None)`:
`queue = cls(maxlen=maxlen)` (constructor errors propagate); then, when
`iterable` is truthy, enqueue `zip(iterable, range(maxlen))` — the first
`maxlen` elements — when `maxlen is not None`, else every element.
`range` of a `float` raises `TypeError`. -/
def Queue.from_iterable {α : Type} (iterable : Option (List α))
    (maxlen : Option PyNum) : Except PyError (Queue α) :=
  match Queue.init α maxlen with
  | .error e => .error e
  | .ok q =>
    if listTruthy iterable then
      match iterable with
      | none => .ok q
      | some xs =>
        match maxlen with
        | none => Queue.enqueueAll q xs
        | some (.int n) => Queue.enqueueAll q (xs.take n.toNat)
        | some (.float _) => .error .typeError
    else .ok q

/-- `Stack.from_iterable(cls, iterable=None, maxlen=None)`: same shape
as `Queue.from_iterable`, with `push`. -/
def Stack.from_iterable {α : Type} (iterable : Option (List α))
    (maxlen : Option PyNum) : Except PyError (Stack α) :=
  match Stack.init α maxlen with
  | .error e => .error e
  | .ok s =>
    if listTruthy iterable then
      match iterable with
      | none => .ok s
      | some xs =>
        match maxlen with
        | none => Stack.pushAll s xs
        | some (.int n) => Stack.pushAll s (xs.take n.toNat)
        | some (.float _) => .error .typeError
    else .ok s

/-- `Queue.__lt__(self, other)` against a raw sequence: `self.queue < other`. -/
def Queue.lt {α : Type} [DecidableEq α] (lt : α → α → Bool) (q : Queue α)
    (other : List α) : Bool :=
  pyListLt lt q.queue other

/-- `Stack.__lt__(self, other)` against a raw sequence: `self.stack < other`. -/
def Stack.lt {α : Type} [DecidableEq α] (lt : α → α → Bool) (s : Stack α)
    (other : List α) : Bool :=
  pyListLt lt s.stack other

/-- `q₁ < q₂` for two `Queue`s: `q₁._queue < q₂` asks `list.__lt__`,
which returns `NotImplemented` against a `Queue`, so Python falls back to
the reflected `q₂.__gt__(q₁._queue)`, which `functools.total_ordering`
derives from `__lt__` and `__eq__` as
`not (q₂ < q₁._queue) and q₂ != q₁._queue`. -/
def Queue.ltContainer {α : Type} [DecidableEq α] (lt : α → α → Bool)
    (q₁ q₂ : Queue α) : Bool :=
  !(pyListLt lt q₂.queue q₁.queue) && !(decide (q₂.queue = q₁.queue))

/-- `s₁ < s₂` for two `Stack`s, by the same reflected-dispatch route. -/
def Stack.ltContainer {α : Type} [DecidableEq α] (lt : α → α → Bool)
    (s₁ s₂ : Stack α) : Bool :=
  !(pyListLt lt s₂.stack s₁.stack) && !(decide (s₂.stack = s₁.stack))

/-- A public mutating operation of a container: insertion of a value, or
removal. -/
inductive ContOp (α : Type) where
  | insert : α → ContOp α
  | remove : ContOp α
  deriving DecidableEq, Repr

/-- The state reached after one queue operation (a failed call leaves the
state as the operation returned it — unchanged). -/
def Queue.step {α : Type} (q : Queue α) : ContOp α → Queue α
  | .insert a => (q.enqueue a).2
  | .remove => q.dequeue.2

/-- Run a sequence of queue operations, keeping each post-state. -/
def Queue.run {α : Type} (q : Queue α) : List (ContOp α) → Queue α
  | [] => q
  | op :: ops => Queue.run (q.step op) ops

/-- The state reached after one stack operation. -/
def Stack.step {α : Type} (s : Stack α) : ContOp α → Stack α
  | .insert a => (s.push a).2
  | .remove => s.pop.2

/-- Run a sequence of stack operations, keeping each post-state. -/
def Stack.run {α : Type} (s : Stack α) : List (ContOp α) → Stack α
  | [] => s
  | op :: ops => Stack.run (s.step op) ops

/-- `n` consecutive `dequeue` calls, keeping the final state. -/
def Queue.dequeueN {α : Type} (q : Queue α) : Nat → Queue α
  | 0 => q
  | n + 1 => Queue.dequeueN q.dequeue.2 n

/-- `n` consecutive `pop` calls, keeping the final state. -/
def Stack.popN {α : Type} (s : Stack α) : Nat → Stack α
  | 0 => s
  | n + 1 => Stack.popN s.pop.2 n

/-! ## Claim C1 — the priority-queue scenario -/

/-- Claim C1 (code bug): the spec's priority-queue scenario — enqueue
`("a",5)`, `("b",1)`, `("c",5)`, then dequeue `"b"`, `"a"`, `"c"` — is
unreachable: both the empty constructor call that would precede the
enqueues and `from_iterable` on exactly those pairs raise `NameError`
(`UnboundLocalError`) inside `PriorityQueue.__init__`, so no dequeue
order is ever observable. -/
theorem pq_scenario_constructor_raises :
    PriorityQueue.init String none = .error .nameError ∧
    PriorityQueue.from_iterable
      (some [("a", PyNum.int 5), ("b", PyNum.int 1), ("c", PyNum.int 5)]) none
      = (.error .nameError : Except PyError (PriorityQueue String)) :=
  ⟨rfl, rfl⟩

/-! ## Claim C2 — every PriorityQueue construction raises NameError -/

/-- Claim C2 (confirmed): for every `maxlen`, `PriorityQueue(maxlen)`
raises `NameError` (the constructor body reads the never-assigned local
`iterable`), and `PriorityQueue.from_iterable`, which calls the
constructor first, raises the same error for every argument pair; no
instance is ever produced. -/
theorem pq_construction_always_raises (α : Type) :
    (∀ maxlen : Option PyNum,
      PriorityQueue.init α maxlen = .error .nameError) ∧
    (∀ (iterable : Option (List (α × PyNum))) (maxlen : Option PyNum),
      PriorityQueue.from_iterable iterable maxlen = .error .nameError) :=
  ⟨fun _ => rfl, fun _ _ => rfl⟩

/-! ## Claim C3 — peek behaviour -/

/-- Claim C3 counterexample: the claim says peek never fails, but
`Queue.first` on the freshly constructed empty queue raises `IndexError`
(via `__getitem__`). -/
theorem queue_first_empty_raises :
    Queue.init Int none = .ok ⟨[], none⟩ ∧
    Queue.first (⟨[], none⟩ : Queue Int) = .error .indexError :=
  ⟨rfl, rfl⟩

/-- Claim C3 (corrected): `Stack.peak` never fails — it returns the
element that the next `pop` would remove when the stack is non-empty and
the `None` sentinel when it is empty — but `Queue.first` raises
`IndexError` on an empty queue and returns the head without removal
otherwise. Both are pure reads: neither returns a mutated state. -/
theorem peek_behaviour (α : Type) (q : Queue α) (s : Stack α) (x : α) (l : List α) :
    (q.queue = [] → Queue.first q = .error .indexError) ∧
    (q.queue = x :: l → Queue.first q = .ok x) ∧
    (s.stack = [] → Stack.peak s = none) ∧
    (s.stack = l ++ [x] → Stack.peak s = some x) := by
  refine ⟨fun h => ?_, fun h => ?_, fun h => ?_, fun h => ?_⟩
  · simp [Queue.first, Queue.getItem, h]
  · simp [Queue.first, Queue.getItem, h]
  · simp [Stack.peak, h]
  · simp [Stack.peak, h]

/-- Witness for C3's theorem at concrete states. -/
theorem peek_behaviour_witness :
    Queue.first (⟨[5], none⟩ : Queue Int) = .ok 5 ∧
    Stack.peak (⟨[1, 2], none⟩ : Stack Int) = some 2 ∧
    Stack.peak (⟨[], none⟩ : Stack Int) = none :=
  ⟨(peek_behaviour Int ⟨[5], none⟩ ⟨[1, 2], none⟩ 5 []).2.1 rfl,
   (peek_behaviour Int ⟨[5], none⟩ ⟨[1, 2], none⟩ 2 [1]).2.2.2 rfl,
   (peek_behaviour Int ⟨[5], none⟩ ⟨[], none⟩ 5 []).2.2.1 rfl⟩

/-! ## Shared lemmas about the capacity guard and the construction loops -/

theorem lenGE_int_iff (len : Nat) (c : Int) : lenGE len (.int c) = true ↔ c ≤ (len : Int) := by
  rw [lenGE, decide_eq_true_iff]
  show ((c : Rat) ≤ (len : Rat)) ↔ _
  exact_mod_cast Iff.rfl

theorem truthy_int_iff (n : Int) : PyNum.truthy (.int n) = true ↔ n ≠ 0 := by
  simp [PyNum.truthy]

theorem queue_init_nat (α : Type) (c : Nat) :
    Queue.init α (some (.int (c : Int))) = .ok ⟨[], some (.int (c : Int))⟩ := by
  have h0 : ¬ ((c : Int) < 0) := by omega
  simp only [Queue.init]
  split_ifs <;> simp [h0]

theorem stack_init_nat (α : Type) (c : Nat) :
    Stack.init α (some (.int (c : Int))) = .ok ⟨[], some (.int (c : Int))⟩ := by
  have h0 : ¬ ((c : Int) < 0) := by omega
  simp only [Stack.init]
  split_ifs <;> simp [h0]

theorem Queue.enqueueAll_none {α : Type} (xs : List α) (q : Queue α)
    (h : q.maxlen = none) :
    Queue.enqueueAll q xs = .ok ⟨q.queue ++ xs, none⟩ := by
  induction xs generalizing q with
  | nil => simp [Queue.enqueueAll, ← h]
  | cons x xs ih =>
    rw [Queue.enqueueAll, Queue.enqueue, h]
    simp only
    rw [ih ⟨q.queue ++ [x], none⟩ rfl]
    simp

theorem Queue.enqueueAll_int {α : Type} (xs : List α) (q : Queue α) (c : Nat)
    (h : q.maxlen = some (.int (c : Int))) (hl : q.queue.length + xs.length ≤ c) :
    Queue.enqueueAll q xs = .ok ⟨q.queue ++ xs, q.maxlen⟩ := by
  induction xs generalizing q with
  | nil => simp [Queue.enqueueAll]
  | cons x xs ih =>
    rw [Queue.enqueueAll, Queue.enqueue, h]
    simp only
    have hguard : lenGE q.queue.length (.int (c : Int)) = false := by
      rw [Bool.eq_false_iff, Ne, lenGE_int_iff]
      simp at hl
      omega
    rw [hguard]
    simp only [Bool.false_eq_true, if_false]
    rw [ih ⟨q.queue ++ [x], some (.int (c : Int))⟩ rfl (by simp at hl ⊢; omega)]
    simp

theorem Stack.pushAll_none {α : Type} (xs : List α) (s : Stack α)
    (h : s.maxlen = none) :
    Stack.pushAll s xs = .ok ⟨s.stack ++ xs, none⟩ := by
  induction xs generalizing s with
  | nil => simp [Stack.pushAll, ← h]
  | cons x xs ih =>
    rw [Stack.pushAll, Stack.push, h]
    simp only
    rw [ih ⟨s.stack ++ [x], none⟩ rfl]
    simp

theorem Stack.pushAll_int {α : Type} (xs : List α) (s : Stack α) (c : Nat)
    (h : s.maxlen = some (.int (c : Int))) (hl : s.stack.length + xs.length ≤ c) :
    Stack.pushAll s xs = .ok ⟨s.stack ++ xs, s.maxlen⟩ := by
  induction xs generalizing s with
  | nil => simp [Stack.pushAll]
  | cons x xs ih =>
    rw [Stack.pushAll, Stack.push, h]
    simp only
    have hguard : lenGE s.stack.length (.int (c : Int)) = false := by
      rw [Bool.eq_false_iff, Ne, lenGE_int_iff]
      simp at hl
      omega
    rw [hguard]
    simp only [Bool.and_false, Bool.false_eq_true, if_false]
    rw [ih ⟨s.stack ++ [x], some (.int (c : Int))⟩ rfl (by simp at hl ⊢; omega)]
    simp

theorem queue_from_iterable_nocap {α : Type} (xs : List α) :
    Queue.from_iterable (some xs) none = .ok ⟨xs, none⟩ := by
  rw [Queue.from_iterable]
  simp only [Queue.init]
  rcases xs with _ | ⟨x, xs⟩
  · rfl
  · rw [if_pos (by rfl)]
    exact Queue.enqueueAll_none (x :: xs) ⟨[], none⟩ rfl

theorem queue_from_iterable_cap {α : Type} (xs : List α) (c : Nat) :
    Queue.from_iterable (some xs) (some (.int (c : Int)))
      = .ok ⟨xs.take c, some (.int (c : Int))⟩ := by
  rw [Queue.from_iterable, queue_init_nat]
  rcases xs with _ | ⟨x, xs⟩
  · simp [listTruthy]
  · have h1 : Queue.enqueueAll (⟨[], some (.int (c : Int))⟩ : Queue α) ((x :: xs).take c)
        = .ok ⟨[] ++ (x :: xs).take c, some (.int (c : Int))⟩ :=
      Queue.enqueueAll_int _ _ c rfl (by simp [List.length_take])
    simp [listTruthy, Int.toNat_natCast, h1]

theorem stack_from_iterable_nocap {α : Type} (xs : List α) :
    Stack.from_iterable (some xs) none = .ok ⟨xs, none⟩ := by
  rw [Stack.from_iterable]
  simp only [Stack.init]
  rcases xs with _ | ⟨x, xs⟩
  · rfl
  · rw [if_pos (by rfl)]
    exact Stack.pushAll_none (x :: xs) ⟨[], none⟩ rfl

theorem stack_from_iterable_cap {α : Type} (xs : List α) (c : Nat) :
    Stack.from_iterable (some xs) (some (.int (c : Int)))
      = .ok ⟨xs.take c, some (.int (c : Int))⟩ := by
  rw [Stack.from_iterable, stack_init_nat]
  rcases xs with _ | ⟨x, xs⟩
  · simp [listTruthy]
  · have h1 : Stack.pushAll (⟨[], some (.int (c : Int))⟩ : Stack α) ((x :: xs).take c)
        = .ok ⟨[] ++ (x :: xs).take c, some (.int (c : Int))⟩ :=
      Stack.pushAll_int _ _ c rfl (by simp [List.length_take])
    simp [listTruthy, Int.toNat_natCast, h1]

/-! ## Claim C4 — insertion at capacity -/

/-- Claim C4 counterexample: a stack is constructed with capacity `0`,
yet a push on it succeeds and inserts the element — `Stack.push` tests
`if self.maxlen:` and a zero `maxlen` is falsy, so the bound is ignored;
the claim's "every insertion is rejected on a capacity-0 container" is
false for the stack. -/
theorem stack_capacity_zero_accepts_push :
    Stack.init Int (some (.int 0)) = .ok ⟨[], some (.int 0)⟩ ∧
    Stack.push (⟨[], some (.int 0)⟩ : Stack Int) 1 = (.ok (), ⟨[1], some (.int 0)⟩) := by
  constructor
  · rfl
  · rfl

/-- Claim C4 (corrected): a queue holding exactly its capacity `c`
(any `c`, including `0`) rejects `enqueue` with `QueueError` and is left
unchanged; a stack holding exactly a positive capacity `c` rejects
`push` with `StackError` and is left unchanged; but a stack whose
capacity is `0` treats the bound as unset (`if self.maxlen:` is falsy),
so every push on it succeeds — capacity `0` rejects insertions on the
queue only. -/
theorem insert_at_capacity (α : Type) (e : α) (c : Nat) (q : Queue α) (s : Stack α) :
    (q.maxlen = some (.int (c : Int)) → q.queue.length = c →
      q.enqueue e = (.error .queueError, q)) ∧
    (s.maxlen = some (.int (c : Int)) → 0 < c → s.stack.length = c →
      s.push e = (.error .stackError, s)) ∧
    (s.maxlen = some (.int 0) →
      s.push e = (.ok (), ⟨s.stack ++ [e], s.maxlen⟩)) := by
  refine ⟨fun h1 h2 => ?_, fun h1 hc h2 => ?_, fun h1 => ?_⟩
  · have hg : lenGE q.queue.length (.int (c : Int)) = true := by
      rw [lenGE_int_iff, h2]
    rw [Queue.enqueue, h1]
    simp [hg]
  · have hg : lenGE s.stack.length (.int (c : Int)) = true := by
      rw [lenGE_int_iff, h2]
    have ht : PyNum.truthy (.int (c : Int)) = true := by
      rw [truthy_int_iff]
      omega
    rw [Stack.push, h1]
    simp [hg, ht]
  · rw [Stack.push, h1]
    simp [PyNum.truthy]

/-- Witness for C4's theorem: a full queue of capacity 1 rejects the
enqueue, a full stack of capacity 1 rejects the push, and a capacity-0
stack accepts it. -/
theorem insert_at_capacity_witness :
    Queue.enqueue (⟨[9], some (.int 1)⟩ : Queue Int) 7
      = (.error .queueError, ⟨[9], some (.int 1)⟩) ∧
    Stack.push (⟨[4], some (.int 1)⟩ : Stack Int) 7
      = (.error .stackError, ⟨[4], some (.int 1)⟩) ∧
    Stack.push (⟨[], some (.int 0)⟩ : Stack Int) 7 = (.ok (), ⟨[7], some (.int 0)⟩) :=
  ⟨(insert_at_capacity Int 7 1 ⟨[9], some (.int 1)⟩ ⟨[4], some (.int 1)⟩).1 rfl rfl,
   (insert_at_capacity Int 7 1 ⟨[9], some (.int 1)⟩ ⟨[4], some (.int 1)⟩).2.1 rfl
     (by decide) rfl,
   (insert_at_capacity Int 7 1 ⟨[9], some (.int 1)⟩ ⟨[], some (.int 0)⟩).2.2 rfl⟩

/-! ## Claim C6 — removal from an empty container -/

/-- Claim C6 counterexample: `PriorityQueue.dequeue` on an empty
priority queue raises the bare `IndexError` of `list.pop(0)`, not the
family's `PriorityQueueError` that the claim requires. -/
theorem pq_dequeue_empty_raises_index_error :
    PriorityQueue.dequeue (⟨[], none⟩ : PriorityQueue Int)
      = (.error .indexError, ⟨[], none⟩) ∧
    PyError.indexError ≠ PyError.pqueueError := by
  constructor
  · rfl
  · decide

/-- Claim C6 (corrected): on an empty container, `Queue.dequeue` raises
the family error `QueueError` and `Stack.pop` the family error
`StackError`, both leaving the container unchanged; the priority queue's
`dequeue` also fails without mutating, but with a plain `IndexError`
rather than a container-family error (and no priority queue is
constructible in the first place, its constructor always raising). -/
theorem remove_from_empty (α : Type) (q : Queue α) (s : Stack α) (p : PriorityQueue α) :
    (q.queue = [] → q.dequeue = (.error .queueError, q)) ∧
    (s.stack = [] → s.pop = (.error .stackError, s)) ∧
    (p.queue = [] → p.dequeue = (.error .indexError, p)) := by
  refine ⟨fun h => ?_, fun h => ?_, fun h => ?_⟩
  · rw [Queue.dequeue]
    rcases q with ⟨l, m⟩
    simp only at h
    subst h
    rfl
  · rw [Stack.pop]
    rcases s with ⟨l, m⟩
    simp only at h
    subst h
    rfl
  · rw [PriorityQueue.dequeue]
    rcases p with ⟨l, m⟩
    simp only at h
    subst h
    rfl

/-- Witness for C6's theorem at concrete empty containers. -/
theorem remove_from_empty_witness :
    Queue.dequeue (⟨[], some (.int 3)⟩ : Queue Int)
      = (.error .queueError, ⟨[], some (.int 3)⟩) ∧
    Stack.pop (⟨[], none⟩ : Stack Int) = (.error .stackError, ⟨[], none⟩) ∧
    PriorityQueue.dequeue (⟨[], none⟩ : PriorityQueue Int)
      = (.error .indexError, ⟨[], none⟩) :=
  ⟨(remove_from_empty Int ⟨[], some (.int 3)⟩ ⟨[], none⟩ ⟨[], none⟩).1 rfl,
   (remove_from_empty Int ⟨[], some (.int 3)⟩ ⟨[], none⟩ ⟨[], none⟩).2.1 rfl,
   (remove_from_empty Int ⟨[], some (.int 3)⟩ ⟨[], none⟩ ⟨[], none⟩).2.2 rfl⟩

/-! ## Claim C5 — the capacity invariant under operation sequences -/

theorem queue_step_maxlen {α : Type} (q : Queue α) (op : ContOp α) :
    (q.step op).maxlen = q.maxlen := by
  cases op with
  | insert a =>
    rw [Queue.step, Queue.enqueue]
    rcases hm : q.maxlen with _ | m
    · rfl
    · simp only
      by_cases hg : lenGE q.queue.length m = true
      · rw [if_pos hg]
        exact hm
      · rw [if_neg hg]
  | remove =>
    rw [Queue.step, Queue.dequeue]
    rcases hq : q.queue with _ | ⟨x, xs⟩
    · rfl
    · rfl

theorem stack_step_maxlen {α : Type} (s : Stack α) (op : ContOp α) :
    (s.step op).maxlen = s.maxlen := by
  cases op with
  | insert a =>
    rw [Stack.step, Stack.push]
    rcases hm : s.maxlen with _ | m
    · rfl
    · simp only
      by_cases hg : (m.truthy && lenGE s.stack.length m) = true
      · rw [if_pos hg]
        exact hm
      · rw [if_neg hg]
  | remove =>
    rw [Stack.step, Stack.pop]
    rcases hs : s.stack.getLast? with _ | x
    · rfl
    · rfl

theorem queue_step_len_le {α : Type} (c : Nat) (q : Queue α)
    (h : q.maxlen = some (.int (c : Int))) (hl : q.queue.length ≤ c) (op : ContOp α) :
    (q.step op).queue.length ≤ c := by
  cases op with
  | insert a =>
    rw [Queue.step, Queue.enqueue, h]
    simp only
    by_cases hg : lenGE q.queue.length (.int (c : Int)) = true
    · rw [if_pos hg]
      exact hl
    · have hlt : ¬ ((c : Int) ≤ (q.queue.length : Int)) :=
        fun hle => hg ((lenGE_int_iff _ _).mpr hle)
      rw [if_neg hg]
      show (q.queue ++ [a]).length ≤ c
      rw [List.length_append]
      simp only [List.length_singleton]
      omega
  | remove =>
    rw [Queue.step, Queue.dequeue]
    rcases hq : q.queue with _ | ⟨x, xs⟩
    · exact hl
    · show xs.length ≤ c
      rw [hq] at hl
      simp only [List.length_cons] at hl
      omega

theorem stack_step_len_le {α : Type} (c : Nat) (hc : 0 < c) (s : Stack α)
    (h : s.maxlen = some (.int (c : Int))) (hl : s.stack.length ≤ c) (op : ContOp α) :
    (s.step op).stack.length ≤ c := by
  cases op with
  | insert a =>
    rw [Stack.step, Stack.push, h]
    simp only
    have ht : PyNum.truthy (.int (c : Int)) = true := by
      rw [truthy_int_iff]
      omega
    by_cases hg : lenGE s.stack.length (.int (c : Int)) = true
    · rw [if_pos (by rw [ht, hg]; rfl)]
      exact hl
    · have hlt : ¬ ((c : Int) ≤ (s.stack.length : Int)) :=
        fun hle => hg ((lenGE_int_iff _ _).mpr hle)
      rw [if_neg (by rw [Bool.and_eq_true]; exact fun hand => hg hand.2)]
      show (s.stack ++ [a]).length ≤ c
      rw [List.length_append]
      simp only [List.length_singleton]
      omega
  | remove =>
    rw [Stack.step, Stack.pop]
    rcases hs : s.stack.getLast? with _ | x
    · exact hl
    · show s.stack.dropLast.length ≤ c
      rw [List.length_dropLast]
      omega

theorem queue_run_len_le {α : Type} (c : Nat) (q : Queue α)
    (h : q.maxlen = some (.int (c : Int))) (hl : q.queue.length ≤ c)
    (ops : List (ContOp α)) : (Queue.run q ops).queue.length ≤ c := by
  induction ops generalizing q with
  | nil => exact hl
  | cons op ops ih =>
    rw [Queue.run]
    exact ih _ (by rw [queue_step_maxlen]; exact h) (queue_step_len_le c q h hl op)

theorem stack_run_len_le {α : Type} (c : Nat) (hc : 0 < c) (s : Stack α)
    (h : s.maxlen = some (.int (c : Int))) (hl : s.stack.length ≤ c)
    (ops : List (ContOp α)) : (Stack.run s ops).stack.length ≤ c := by
  induction ops generalizing s with
  | nil => exact hl
  | cons op ops ih =>
    rw [Stack.run]
    exact ih _ (by rw [stack_step_maxlen]; exact h) (stack_step_len_le c hc s h hl op)

/-- Claim C5 counterexample: a stack constructed with capacity `0`
admits a successful push, after which its size is `1 > 0` — the
capacity invariant fails for the stack at capacity `0`. -/
theorem stack_run_capacity_zero_violation :
    Stack.init Int (some (.int 0)) = .ok ⟨[], some (.int 0)⟩ ∧
    (Stack.run (⟨[], some (.int 0)⟩ : Stack Int) [ContOp.insert 5]).stack.length = 1 := by
  constructor
  · rfl
  · rfl

/-- Claim C5 (corrected): for a queue constructed with any capacity `c`
(directly or via `from_iterable`), every sequence of operations keeps
`size ≤ c`; for a stack the same holds for every positive capacity, but
not for capacity `0`, which `Stack.push`'s truthiness test treats as
unset. -/
theorem capacity_invariant_runs (α : Type) (c : Nat) :
    (∀ q₀ : Queue α,
      (Queue.init α (some (.int (c : Int))) = .ok q₀ ∨
        ∃ xs, Queue.from_iterable (some xs) (some (.int (c : Int))) = .ok q₀) →
      ∀ ops : List (ContOp α), (Queue.run q₀ ops).queue.length ≤ c) ∧
    (0 < c → ∀ s₀ : Stack α,
      (Stack.init α (some (.int (c : Int))) = .ok s₀ ∨
        ∃ xs, Stack.from_iterable (some xs) (some (.int (c : Int))) = .ok s₀) →
      ∀ ops : List (ContOp α), (Stack.run s₀ ops).stack.length ≤ c) := by
  constructor
  · rintro q₀ (h | ⟨xs, h⟩) ops
    · rw [queue_init_nat] at h
      cases h
      exact queue_run_len_le c _ rfl (by simp) ops
    · rw [queue_from_iterable_cap] at h
      cases h
      exact queue_run_len_le c _ rfl (by simp [List.length_take]) ops
  · rintro hc s₀ (h | ⟨xs, h⟩) ops
    · rw [stack_init_nat] at h
      cases h
      exact stack_run_len_le c hc _ rfl (by simp) ops
    · rw [stack_from_iterable_cap] at h
      cases h
      exact stack_run_len_le c hc _ rfl (by simp [List.length_take]) ops

/-- Witness for C5's theorem: concrete runs that overfill and then drain. -/
theorem capacity_invariant_runs_witness :
    (Queue.run (⟨[], some (.int 2)⟩ : Queue Int)
      [ContOp.insert 1, ContOp.insert 2, ContOp.insert 3]).queue.length ≤ 2 ∧
    (Stack.run (⟨[1], some (.int 1)⟩ : Stack Int)
      [ContOp.insert 2, ContOp.remove]).stack.length ≤ 1 :=
  ⟨(capacity_invariant_runs Int 2).1 ⟨[], some (.int 2)⟩ (Or.inl rfl) _,
   (capacity_invariant_runs Int 1).2 (by decide) ⟨[1], some (.int 1)⟩
     (Or.inr ⟨[1], by simpa using stack_from_iterable_cap (α := Int) [1] 1⟩) _⟩

/-! ## Claim C7 — capacity validation at construction -/

/-- Claim C7 counterexample: `0.0` is a supplied, non-integral capacity,
yet construction succeeds for both families — `if maxlen:` skips the
whole validation block for falsy arguments, so no `TypeError`
(`InvalidCapacityKind`) is raised. -/
theorem float_zero_capacity_accepted :
    Queue.init Int (some (.float 0)) = .ok ⟨[], some (.float 0)⟩ ∧
    Stack.init Int (some (.float 0)) = .ok ⟨[], some (.float 0)⟩ := by
  constructor
  · rfl
  · rfl

/-- Claim C7 (corrected): construction rejects a nonzero non-integral
capacity with `TypeError` (`InvalidCapacityKind`) and a negative integer
capacity with `ValueError` (`InvalidCapacityValue`), and accepts `None`,
every non-negative integer, and — because falsy values skip validation —
the non-integral `0.0`; in particular `-1` raises `ValueError` and `2.5`
raises `TypeError`. -/
theorem construct_capacity_validation (α : Type) (n : Int) (x : Rat) :
    (Queue.init α none = .ok ⟨[], none⟩) ∧
    (n < 0 → Queue.init α (some (.int n)) = .error .valueError) ∧
    (0 ≤ n → Queue.init α (some (.int n)) = .ok ⟨[], some (.int n)⟩) ∧
    (x ≠ 0 → Queue.init α (some (.float x)) = .error .typeError) ∧
    (Queue.init α (some (.float 0)) = .ok ⟨[], some (.float 0)⟩) ∧
    (Stack.init α none = .ok ⟨[], none⟩) ∧
    (n < 0 → Stack.init α (some (.int n)) = .error .valueError) ∧
    (0 ≤ n → Stack.init α (some (.int n)) = .ok ⟨[], some (.int n)⟩) ∧
    (x ≠ 0 → Stack.init α (some (.float x)) = .error .typeError) ∧
    (Stack.init α (some (.float 0)) = .ok ⟨[], some (.float 0)⟩) := by
  have htf : ∀ y : Rat, y ≠ 0 → PyNum.truthy (.float y) = true := by
    intro y hy
    simpa [PyNum.truthy] using hy
  refine ⟨rfl, fun hn => ?_, fun hn => ?_, fun hx => ?_, by rfl,
          rfl, fun hn => ?_, fun hn => ?_, fun hx => ?_, by rfl⟩
  · have ht : PyNum.truthy (.int n) = true := by
      rw [truthy_int_iff]
      omega
    simp only [Queue.init, ht, if_true]
    rw [if_pos hn]
  · by_cases h0 : n = 0
    · subst h0
      rfl
    · have ht : PyNum.truthy (.int n) = true := by
        rw [truthy_int_iff]
        exact h0
      simp only [Queue.init, ht, if_true]
      rw [if_neg (by omega)]
  · simp only [Queue.init, htf x hx, if_true]
  · have ht : PyNum.truthy (.int n) = true := by
      rw [truthy_int_iff]
      omega
    simp only [Stack.init, ht, if_true]
    rw [if_pos hn]
  · by_cases h0 : n = 0
    · subst h0
      rfl
    · have ht : PyNum.truthy (.int n) = true := by
        rw [truthy_int_iff]
        exact h0
      simp only [Stack.init, ht, if_true]
      rw [if_neg (by omega)]
  · simp only [Stack.init, htf x hx, if_true]

/-- Witness for C7's theorem: capacity `-1` raises `ValueError`,
capacity `5/2` (Python's `2.5`) raises `TypeError`, for both families. -/
theorem construct_capacity_validation_witness :
    Queue.init Int (some (.int (-1))) = .error .valueError ∧
    Queue.init Int (some (.float (mkRat 5 2))) = .error .typeError ∧
    Stack.init Int (some (.int (-1))) = .error .valueError ∧
    Stack.init Int (some (.float (mkRat 5 2))) = .error .typeError :=
  ⟨(construct_capacity_validation Int (-1) (mkRat 5 2)).2.1 (by decide),
   (construct_capacity_validation Int (-1) (mkRat 5 2)).2.2.2.1 (by decide),
   (construct_capacity_validation Int (-1) (mkRat 5 2)).2.2.2.2.2.2.1 (by decide),
   (construct_capacity_validation Int (-1) (mkRat 5 2)).2.2.2.2.2.2.2.2.1 (by decide)⟩

/-! ## Claim C8 — building from a source sequence -/

/-- Claim C8 (confirmed): `from_iterable(S, c)` builds a container whose
contents are the first `c` elements of `S` in order (so all of `S` when
`c ≥ len(S)`, the remainder silently dropped otherwise), and all of `S`
when no capacity is given; for queue and stack alike. -/
theorem from_iterable_contents (α : Type) (xs : List α) (c : Nat) :
    (Queue.from_iterable (some xs) none = .ok ⟨xs, none⟩) ∧
    (Queue.from_iterable (some xs) (some (.int (c : Int)))
      = .ok ⟨xs.take c, some (.int (c : Int))⟩) ∧
    (Stack.from_iterable (some xs) none = .ok ⟨xs, none⟩) ∧
    (Stack.from_iterable (some xs) (some (.int (c : Int)))
      = .ok ⟨xs.take c, some (.int (c : Int))⟩) ∧
    (xs.length ≤ c →
      Queue.from_iterable (some xs) (some (.int (c : Int)))
        = .ok ⟨xs, some (.int (c : Int))⟩) ∧
    (xs.length ≤ c →
      Stack.from_iterable (some xs) (some (.int (c : Int)))
        = .ok ⟨xs, some (.int (c : Int))⟩) := by
  refine ⟨queue_from_iterable_nocap xs, queue_from_iterable_cap xs c,
          stack_from_iterable_nocap xs, stack_from_iterable_cap xs c,
          fun h => ?_, fun h => ?_⟩
  · rw [queue_from_iterable_cap, List.take_of_length_le h]
  · rw [stack_from_iterable_cap, List.take_of_length_le h]

/-- Witness for C8's theorem: a three-element source with capacity `2`
truncates, and with capacity `5 ≥ 3` it is preserved whole. -/
theorem from_iterable_contents_witness :
    Queue.from_iterable (some [1, 2, 3]) (some (.int 2))
      = .ok (⟨[1, 2], some (.int 2)⟩ : Queue Int) ∧
    Stack.from_iterable (some [1, 2, 3]) (some (.int 5))
      = .ok (⟨[1, 2, 3], some (.int 5)⟩ : Stack Int) :=
  ⟨by simpa using (from_iterable_contents Int [1, 2, 3] 2).2.1,
   by simpa using (from_iterable_contents Int [1, 2, 3] 5).2.2.2.2.2 (by decide)⟩

/-! ## Claim C9 — push/pop and enqueue/dequeue round trips -/

theorem Stack.push_ok {α : Type} (s s₁ : Stack α) (e : α) (u : Unit)
    (h : s.push e = (.ok u, s₁)) : s₁ = ⟨s.stack ++ [e], s.maxlen⟩ := by
  rw [Stack.push] at h
  split at h
  · split at h
    · simp at h
    · simp only [Prod.mk.injEq] at h
      exact h.2.symm
  · simp only [Prod.mk.injEq] at h
    exact h.2.symm

theorem Queue.enqueue_ok {α : Type} (q q₁ : Queue α) (e : α) (u : Unit)
    (h : q.enqueue e = (.ok u, q₁)) : q₁ = ⟨q.queue ++ [e], q.maxlen⟩ := by
  rw [Queue.enqueue] at h
  split at h
  · split at h
    · simp at h
    · simp only [Prod.mk.injEq] at h
      exact h.2.symm
  · simp only [Prod.mk.injEq] at h
    exact h.2.symm

theorem Stack.pushAll_ok_shape {α : Type} (xs : List α) (s s' : Stack α)
    (h : Stack.pushAll s xs = .ok s') : s' = ⟨s.stack ++ xs, s.maxlen⟩ := by
  induction xs generalizing s with
  | nil =>
    rw [Stack.pushAll] at h
    cases h
    simp
  | cons x xs ih =>
    rw [Stack.pushAll] at h
    rcases hp : s.push x with ⟨out, s₁⟩
    rw [hp] at h
    cases out with
    | ok u =>
      have hs₁ := Stack.push_ok s s₁ x u hp
      subst hs₁
      rw [ih _ h]
      simp
    | error e => simp at h

theorem Queue.enqueueAll_ok_shape {α : Type} (xs : List α) (q q' : Queue α)
    (h : Queue.enqueueAll q xs = .ok q') : q' = ⟨q.queue ++ xs, q.maxlen⟩ := by
  induction xs generalizing q with
  | nil =>
    rw [Queue.enqueueAll] at h
    cases h
    simp
  | cons x xs ih =>
    rw [Queue.enqueueAll] at h
    rcases hp : q.enqueue x with ⟨out, q₁⟩
    rw [hp] at h
    cases out with
    | ok u =>
      have hq₁ := Queue.enqueue_ok q q₁ x u hp
      subst hq₁
      rw [ih _ h]
      simp
    | error e => simp at h

theorem Stack.popN_append {α : Type} (xs l : List α) (m : Option PyNum) :
    Stack.popN ⟨l ++ xs, m⟩ xs.length = ⟨l, m⟩ := by
  induction xs using List.reverseRecOn generalizing l with
  | nil => simp [Stack.popN]
  | append_singleton ys y ih =>
    rw [List.length_append, List.length_singleton, Stack.popN]
    have hpop : (Stack.pop ⟨l ++ (ys ++ [y]), m⟩).2 = ⟨l ++ ys, m⟩ := by
      rw [Stack.pop]
      rw [show l ++ (ys ++ [y]) = (l ++ ys) ++ [y] from (List.append_assoc l ys [y]).symm]
      rw [List.getLast?_concat]
      simp [List.dropLast_concat]
    rw [hpop]
    exact ih l

theorem Queue.dequeueN_drop {α : Type} (n : Nat) (l : List α) (m : Option PyNum) :
    Queue.dequeueN ⟨l, m⟩ n = ⟨l.drop n, m⟩ := by
  induction n generalizing l with
  | zero => simp [Queue.dequeueN]
  | succ k ih =>
    rw [Queue.dequeueN]
    rcases l with _ | ⟨x, xs⟩
    · show Queue.dequeueN ⟨[], m⟩ k = _
      rw [ih]
      simp
    · show Queue.dequeueN ⟨xs, m⟩ k = _
      rw [ih]
      simp

/-- Claim C9 counterexample: a queue holding `[1, 2]` (unbounded — room
for one more), after one successful enqueue and one dequeue, holds
`[2, 3]`, not its pre-enqueue contents `[1, 2]` — the FIFO dequeue
removes the oldest element, not the newly enqueued one. -/
theorem queue_round_trip_fails :
    Queue.enqueueAll (⟨[1, 2], none⟩ : Queue Int) [3] = .ok ⟨[1, 2, 3], none⟩ ∧
    Queue.dequeueN (⟨[1, 2, 3], none⟩ : Queue Int) 1 ≠ (⟨[1, 2], none⟩ : Queue Int) := by
  constructor
  · rfl
  · decide

/-- Claim C9 (corrected): `n` successful pushes followed by `n` pops
restore a stack exactly; for a queue, `n` successful enqueues followed by
`n` dequeues leave `drop n (old ++ new)` — the `n` oldest elements are
removed, so the pre-enqueue contents are restored when (and only in
general when) the queue was empty before the enqueues; the size is
always restored. -/
theorem round_trip (α : Type) (s s' : Stack α) (q q' : Queue α) (xs : List α) :
    (Stack.pushAll s xs = .ok s' → Stack.popN s' xs.length = s) ∧
    (Queue.enqueueAll q xs = .ok q' →
      Queue.dequeueN q' xs.length = ⟨(q.queue ++ xs).drop xs.length, q.maxlen⟩) ∧
    (Queue.enqueueAll q xs = .ok q' → q.queue = [] →
      Queue.dequeueN q' xs.length = q) := by
  refine ⟨fun h => ?_, fun h => ?_, fun h hq => ?_⟩
  · rw [Stack.pushAll_ok_shape xs s s' h, Stack.popN_append]
  · rw [Queue.enqueueAll_ok_shape xs q q' h, Queue.dequeueN_drop]
  · rw [Queue.enqueueAll_ok_shape xs q q' h, Queue.dequeueN_drop]
    rcases q with ⟨ql, qm⟩
    simp only at hq
    subst hq
    simp

/-- Witness for C9's theorem: a bounded stack round-trips through a push
and a pop; an initially empty queue round-trips through two enqueues and
two dequeues. -/
theorem round_trip_witness :
    Stack.popN (⟨[1, 2, 9], some (.int 3)⟩ : Stack Int) 1 = ⟨[1, 2], some (.int 3)⟩ ∧
    Queue.dequeueN (⟨[4, 5], none⟩ : Queue Int) 2 = ⟨[], none⟩ :=
  ⟨(round_trip Int ⟨[1, 2], some (.int 3)⟩ ⟨[1, 2, 9], some (.int 3)⟩
      ⟨[], none⟩ ⟨[4, 5], none⟩ [9]).1 (by rfl),
   (round_trip Int ⟨[1, 2], some (.int 3)⟩ ⟨[1, 2, 9], some (.int 3)⟩
      ⟨[], none⟩ ⟨[4, 5], none⟩ [4, 5]).2.2 (by rfl) rfl⟩

/-! ## Claim C10 — empty compares less than non-empty -/

/-- Claim C10 (confirmed): under the lexicographic `<`, an empty queue or
stack is strictly less than any non-empty raw sequence and than any
non-empty container of the same kind (through the reflected
`total_ordering` dispatch), for every element order `lt`. -/
theorem empty_lt_nonempty (α : Type) [DecidableEq α] (lt : α → α → Bool)
    (q₁ q₂ : Queue α) (s : List α) (s₁ s₂ : Stack α) (t : List α)
    (hq : q₁.queue = []) (hs : s ≠ []) (hq₂ : q₂.queue ≠ [])
    (hst : s₁.stack = []) (ht : t ≠ []) (hs₂ : s₂.stack ≠ []) :
    Queue.lt lt q₁ s = true ∧ Queue.ltContainer lt q₁ q₂ = true ∧
    Stack.lt lt s₁ t = true ∧ Stack.ltContainer lt s₁ s₂ = true := by
  refine ⟨?_, ?_, ?_, ?_⟩
  · rw [Queue.lt, hq]
    rcases s with _ | ⟨x, xs⟩
    · exact absurd rfl hs
    · rfl
  · rw [Queue.ltContainer, hq]
    rcases h2 : q₂.queue with _ | ⟨x, xs⟩
    · exact absurd h2 hq₂
    · simp [pyListLt]
  · rw [Stack.lt, hst]
    rcases t with _ | ⟨x, xs⟩
    · exact absurd rfl ht
    · rfl
  · rw [Stack.ltContainer, hst]
    rcases h2 : s₂.stack with _ | ⟨x, xs⟩
    · exact absurd h2 hs₂
    · simp [pyListLt]

/-- Witness for C10's theorem: the empty queue and stack compare below
`[1, 2]` and below the containers holding `[1, 2]`, under `Int`'s order. -/
theorem empty_lt_nonempty_witness :
    Queue.lt (fun a b : Int => decide (a < b)) ⟨[], none⟩ [1, 2] = true ∧
    Queue.ltContainer (fun a b : Int => decide (a < b)) ⟨[], none⟩
      ⟨[1, 2], some (.int 2)⟩ = true ∧
    Stack.lt (fun a b : Int => decide (a < b)) ⟨[], none⟩ [1, 2] = true ∧
    Stack.ltContainer (fun a b : Int => decide (a < b)) ⟨[], none⟩
      ⟨[1, 2], some (.int 2)⟩ = true :=
  empty_lt_nonempty Int (fun a b : Int => decide (a < b))
    ⟨[], none⟩ ⟨[1, 2], some (.int 2)⟩ [1, 2]
    ⟨[], none⟩ ⟨[1, 2], some (.int 2)⟩ [1, 2]
    rfl (by decide) (by decide) rfl (by decide) (by decide)
